import Mathlib

/-!
Verification development for the YoutubeDoro timer page
(`src/components/YouTubeRestTimer.tsx`, `src/lib/youtube.ts`).

The embedding works over `List Char` for string manipulation (JavaScript
string primitives such as `trim`, `split`, `includes` are modelled as
structurally recursive char-list functions), over `ℚ` for JavaScript
numbers wherever `Math.floor` matters, and over `ℤ`/`ℕ` where the code
only ever holds integers.  Wall-clock instants are `ℕ` milliseconds.
-/

/- ======================  Video-ID resolver  ====================== -/

/-- Character class of the JS regex `/^[a-zA-Z0-9_-]{11}$/`. -/
def isIdChar (c : Char) : Bool :=
  c.isAlpha || c.isDigit || c = '_' || c = '-'

/-- Test of the JS regex `/^[a-zA-Z0-9_-]{11}$/`: exactly 11 chars of the class. -/
def isValidId11 (l : List Char) : Bool :=
  l.length == 11 && l.all isIdChar

/-- JS `String.prototype.trim` on the underlying char list. -/
def trimChars (l : List Char) : List Char :=
  ((l.dropWhile Char.isWhitespace).reverse.dropWhile Char.isWhitespace).reverse

/-- Whether the first list starts the second (helper for substring search). -/
def startsWithChars : List Char → List Char → Bool
  | [], _ => true
  | _ :: _, [] => false
  | p :: ps, c :: cs => (p = c) && startsWithChars ps cs

/-- JS `String.prototype.includes`: the pattern occurs somewhere in the list. -/
def containsSub (pat : List Char) : List Char → Bool
  | [] => startsWithChars pat []
  | c :: cs => startsWithChars pat (c :: cs) || containsSub pat cs

/-- JS `String.prototype.split(sep)` (single-char separator): always returns at
least one piece, empty pieces included. -/
def splitSep (sep : Char) : List Char → List (List Char)
  | [] => [[]]
  | c :: cs =>
    if c = sep then [] :: splitSep sep cs
    else
      match splitSep sep cs with
      | [] => [[c]]
      | h :: t => (c :: h) :: t

/-- The slice of a parsed absolute URL that `extractYouTubeVideoId` reads. -/
structure URLParts where
  hostname : List Char
  pathname : List Char
  query : List (List Char × List Char)
deriving DecidableEq

/-- Characters allowed in a URL scheme. -/
def isSchemeChar (c : Char) : Bool :=
  c.isAlpha || c.isDigit || c = '+' || c = '-' || c = '.'

/-- One `key=value` piece of a query string (no `=` means empty value). -/
def parseQueryPair (p : List Char) : List Char × List Char :=
  (p.takeWhile (· ≠ '='),
   match p.dropWhile (· ≠ '=') with
   | _ :: v => v
   | [] => [])

/-- Query pairs of a raw query string, as `URLSearchParams` exposes them. -/
def parseQuery (qs : List Char) : List (List Char × List Char) :=
  ((splitSep '&' qs).filter (· ≠ [])).map parseQueryPair

/-- `URLSearchParams.get`: value of the first pair with the given key. -/
def getParam (q : List (List Char × List Char)) (k : List Char) : Option (List Char) :=
  (q.find? (fun pr => pr.1 == k)).map (·.2)

/-- Model of the platform's absolute-URL parser (the `new URL` collaborator),
restricted to the fields the resolver reads: lower-cased hostname, pathname
(`"/"` when empty) and query pairs.  `none` models the `TypeError` thrown on
inputs without a `scheme://host` structure, which the caller catches. -/
def parseURL (l : List Char) : Option URLParts :=
  let scheme := l.takeWhile (· ≠ ':')
  match l.dropWhile (· ≠ ':') with
  | ':' :: r =>
    if (match scheme with
        | c :: _ => c.isAlpha && scheme.all isSchemeChar
        | [] => false) then
      match r with
      | '/' :: '/' :: r2 =>
        let notAuthEnd : Char → Bool := fun c => !(c = '/' || c = '?' || c = '#')
        let auth := r2.takeWhile notAuthEnd
        let rest := r2.dropWhile notAuthEnd
        let hostPort := (splitSep '@' auth).getLastD auth
        let host := hostPort.takeWhile (· ≠ ':')
        if host = [] then none
        else
          let notPathEnd : Char → Bool := fun c => !(c = '?' || c = '#')
          let path := rest.takeWhile notPathEnd
          let afterPath := rest.dropWhile notPathEnd
          let qs :=
            match afterPath with
            | '?' :: q => q.takeWhile (· ≠ '#')
            | _ => []
          some { hostname := host.map Char.toLower,
                 pathname := if path = [] then ['/'] else path,
                 query := parseQuery qs }
      | _ => none
    else none
  | _ => none

/-- `url.pathname.split("/").filter(Boolean)`. -/
def pathSegments (p : List Char) : List (List Char) :=
  (splitSep '/' p).filter (· ≠ [])

/-- The segment right after the first occurrence of `marker`
(JS `parts.indexOf(marker)` followed by `parts[idx + 1]`). -/
def idAfterMarker (marker : List Char) : List (List Char) → Option (List Char)
  | [] => none
  | x :: xs => if x = marker then xs.head? else idAfterMarker marker xs

/-- Embedding of `extractYouTubeVideoId`
(`src/components/YouTubeRestTimer.tsx` lines 12–43; byte-identical copy in
`src/lib/youtube.ts`).  `some id` is the returned id, `none` is `null`. -/
def extractCore (input : List Char) : Option (List Char) :=
  let raw := trimChars input
  if isValidId11 raw then some raw
  else
    match parseURL raw with
    | none => none
    | some u =>
      if containsSub "youtu.be".data u.hostname then
        match pathSegments u.pathname with
        | [] => none
        | id :: _ => if isValidId11 id then some id else none
      else
        let parts := pathSegments u.pathname
        let shortsRes :=
          match idAfterMarker "shorts".data parts with
          | some n => if isValidId11 n then some n else none
          | none => none
        let markerRes :=
          match idAfterMarker "embed".data parts with
          | some n => if isValidId11 n then some n else shortsRes
          | none => shortsRes
        match getParam u.query "v".data with
        | some v => if v ≠ [] && isValidId11 v then some v else markerRes
        | none => markerRes

/-- String-level entry point of the resolver. -/
def extractYouTubeVideoId (input : String) : Option String :=
  (extractCore input.data).map fun l => ⟨l⟩

/- ======================  Countdown timer engine  ====================== -/

namespace Countdown

inductive Status
  | idle
  | running
  | paused
  | done
deriving DecidableEq, Repr

/-- Observable side effects of the engine, in emission order: a credit into
the daily total (`onAddLearn` / `onAddRest`) or the completion-notification
block (`beepTriple` plus the browser `Notification`). -/
inductive Event
  | credit (n : ℕ)
  | notify
deriving DecidableEq, Repr

/-- State of one countdown card (`LearningCard` / `PlainRestPanel`):
the React state fields, the `timerRef` interval handle (`intervalActive`),
the captured wall-clock anchor (`startTs`, ms), the running daily total the
card credits into, and the emitted side-effect trace. -/
structure CdState where
  status : Status
  targetSec : ℕ
  startTs : ℕ
  elapsedSec : ℕ
  remainingSec : ℕ
  intervalActive : Bool
  total : ℕ
  trace : List Event
deriving DecidableEq, Repr

/-- Initial component state (`useState` initializers of `LearningCard`). -/
def init : CdState :=
  { status := .idle, targetSec := 25 * 60, startTs := 0, elapsedSec := 0,
    remainingSec := 0, intervalActive := false, total := 0, trace := [] }

/-- `start()`: clamp minutes to a whole minute ≥ 1, arm the interval,
record the wall-clock anchor. -/
def start (minutes : ℚ) (now : ℕ) (s : CdState) : CdState :=
  let m : ℤ := max 1 ⌊minutes⌋
  let t : ℕ := (m * 60).toNat
  { s with status := .running, targetSec := t, elapsedSec := 0, remainingSec := t,
           startTs := now, intervalActive := true }

/-- One interval callback at wall-clock `now` (ms).  Delivered only while the
interval is armed; recomputes elapsed/remaining from the anchor and, on
reaching zero, clears the interval, moves to `Done`, credits the full target
and then fires the notification block. -/
def tick (now : ℕ) (s : CdState) : CdState :=
  if s.intervalActive = false then s
  else
    let el := (now - s.startTs) / 1000
    let rem := s.targetSec - el
    if rem = 0 then
      { s with elapsedSec := el, remainingSec := rem, intervalActive := false,
               status := .done, total := s.total + s.targetSec,
               trace := s.trace ++ [.credit s.targetSec, .notify] }
    else
      { s with elapsedSec := el, remainingSec := rem }

/-- `stop()`: no-op unless `Running`; otherwise clear the interval, move to
`Paused` and credit the measured elapsed seconds. -/
def stop (s : CdState) : CdState :=
  if s.status ≠ .running then s
  else
    { s with intervalActive := false, status := .paused, total := s.total + s.elapsedSec,
             trace := s.trace ++ [.credit s.elapsedSec] }

/-- Events driving the engine. -/
inductive Op
  | start (minutes : ℚ) (now : ℕ)
  | tick (now : ℕ)
  | stop

def applyOp (s : CdState) : Op → CdState
  | .start m now => start m now s
  | .tick now => tick now s
  | .stop => stop s

/-- State reached from the freshly mounted card after a sequence of events. -/
def run (ops : List Op) : CdState := ops.foldl applyOp init

/-- The countdown invariant that actually holds on the code: the Running
equation is exact, while in `Done` the remaining time is 0 and the recorded
elapsed time is at least the target (strictly more when the final tick was
delivered late, e.g. under tab throttling). -/
def CdInv (s : CdState) : Prop :=
  (s.status = .running → s.elapsedSec + s.remainingSec = s.targetSec)
  ∧ (s.status = .done → s.remainingSec = 0 ∧ s.targetSec ≤ s.elapsedSec)
  ∧ (s.intervalActive = true → s.status = .running)

end Countdown

/- ======================  Daily totals store  ====================== -/

namespace Page

/-- The `localStorage` slice the page touches: `ytdoro:` keys to the numeric
reading of the stored string (`none` = key absent; unparsable strings, which
`readNumber` maps to 0, are folded into the absent case). -/
def Storage := String → Option ℤ

/-- `readNumber`: missing (or unparsable) values read as 0. -/
def readNumber (st : Storage) (k : String) : ℤ := (st k).getD 0

/-- `writeNumber`: stores `String(Math.max(0, Math.floor(value)))`. -/
def writeNumber (st : Storage) (k : String) (v : ℤ) : Storage :=
  fun k' => if k' = k then some (max 0 v) else st k'

def learnKeyOf (d : String) : String := "ytdoro:" ++ d ++ ":learnSec"
def restKeyOf (d : String) : String := "ytdoro:" ++ d ++ ":restSec"
def legacyKeyOf (d : String) : String := "ytdoro:" ++ d ++ ":breakSec"

/-- Page-level state: `today = none` until the deferred day-key effect has
run (while unresolved all derived keys are empty strings, so persistence
writes are skipped), plus the two in-memory totals and the storage. -/
structure Store where
  today : Option String
  totalLearn : ℤ
  totalRest : ℤ
  storage : Storage

/-- JS `a || b` on numbers (0 is falsy). -/
def orElseNum (a b : ℤ) : ℤ := if a = 0 then b else a

/-- `addLearn(seconds)`: clamp, add to the in-memory total, persist when the
day key is resolved. -/
def addLearn (seconds : ℚ) (s : Store) : Store :=
  let delta : ℤ := max 0 ⌊seconds⌋
  let next := s.totalLearn + delta
  { s with totalLearn := next,
           storage := match s.today with
                      | some d => writeNumber s.storage (learnKeyOf d) next
                      | none => s.storage }

/-- `addRest(seconds)`: clamp, add to the in-memory total, persist when the
day key is resolved. -/
def addRest (seconds : ℚ) (s : Store) : Store :=
  let delta : ℤ := max 0 ⌊seconds⌋
  let next := s.totalRest + delta
  { s with totalRest := next,
           storage := match s.today with
                      | some d => writeNumber s.storage (restKeyOf d) next
                      | none => s.storage }

/-- `resetToday()`: zero both in-memory totals and, when resolved, the three
persisted keys (learn, rest and the legacy break key). -/
def resetToday (s : Store) : Store :=
  { s with totalLearn := 0, totalRest := 0,
           storage := match s.today with
                      | some d =>
                        writeNumber (writeNumber (writeNumber s.storage
                          (learnKeyOf d) 0) (restKeyOf d) 0) (legacyKeyOf d) 0
                      | none => s.storage }

/-- The deferred day-key effect (`useEffect` body, lines 319–342): resolves
`today`, restores the totals from storage with the legacy `breakSec` value as
fallback for a zero `restSec`, and runs the guarded forward-migration write
exactly as the source guards it (`rest === 0 && legacy > 0` on the
post-fallback value). -/
def resolveDay (d : String) (s : Store) : Store :=
  let learn := readNumber s.storage (learnKeyOf d)
  let legacy := readNumber s.storage (legacyKeyOf d)
  let rest := orElseNum (readNumber s.storage (restKeyOf d)) legacy
  { s with today := some d, totalLearn := learn, totalRest := rest,
           storage := if rest = 0 ∧ legacy > 0
                      then writeNumber s.storage (restKeyOf d) legacy
                      else s.storage }

end Page

/- ======================  Player-driven rest panel  ====================== -/

namespace YtPanel

/-- Snapshot of what the external player reports when polled
(`getDuration` / `getCurrentTime`). -/
structure Player where
  duration : ℚ
  currentTime : ℚ
deriving DecidableEq, Repr

inductive Status
  | idle
  | playing
  | paused
  | ended
  | error
deriving DecidableEq, Repr

/-- State of `YouTubeRestPanel`: React state fields, the `playerRef` and
`tickRef` mutable refs (the latter as the `tickActive` flag), the
`countedRef` one-shot credit latch, and the accumulated Rest total the panel
credits through `onAddRest`. -/
structure PanelState where
  input : String
  status : Status
  videoId : Option String
  durationSec : ℕ
  remainingSec : ℕ
  errorMsg : String
  player : Option Player
  tickActive : Bool
  counted : Bool
  restTotal : ℕ
deriving DecidableEq, Repr

/-- One poll (`tickOnce`): read duration/position from the mounted player and
update the displayed duration (floor) and remaining (`max(0, floor(d - t))`). -/
def tickOnce (s : PanelState) : PanelState :=
  match s.player with
  | none => s
  | some p =>
    { s with durationSec := if 0 < p.duration then (⌊p.duration⌋).toNat else s.durationSec,
             remainingSec := if 0 < p.duration
                             then (max 0 ⌊p.duration - p.currentTime⌋).toNat
                             else s.remainingSec }

/-- `startRestYoutube()`: clear the error text and the poll interval, resolve
the input; on failure go to `Error` with the validation message, otherwise
re-clear the credit latch and mount a fresh session at `Idle`. -/
def startRestYoutube (s : PanelState) : PanelState :=
  let s₁ : PanelState := { s with errorMsg := "", tickActive := false }
  match extractYouTubeVideoId s.input with
  | none => { s₁ with status := .error, errorMsg := "URL/ID YouTube tidak valid." }
  | some id => { s₁ with counted := false, videoId := some id,
                         durationSec := 0, remainingSec := 0, status := .idle }

/-- `stopRestYoutube()`: no-op with no mounted player; otherwise credit
`max(0, durationSec - remainingSec)` once (guarded by the latch, and only if
positive), then halt polling, stop the video and unmount. -/
def stopRestYoutube (s : PanelState) : PanelState :=
  match s.player with
  | none => s
  | some _ =>
    let s₁ : PanelState :=
      if s.counted = false then
        let used := s.durationSec - s.remainingSec
        { s with restTotal := s.restTotal + (if 0 < used then used else 0),
                 counted := true }
      else s
    { s₁ with tickActive := false, status := .idle, videoId := none,
              durationSec := 0, remainingSec := 0 }

/-- `handleEndedCount()`: one-shot natural-end credit of the full known
duration (state value, falling back to a fresh `getDuration` poll). -/
def handleEndedCount (s : PanelState) : PanelState :=
  if s.counted then s
  else
    let s₁ : PanelState := { s with counted := true }
    let d : ℤ := if s.durationSec ≠ 0 then (s.durationSec : ℤ)
                 else match s.player with
                      | some p => ⌊p.duration⌋
                      | none => 0
    if 0 < d then { s₁ with restTotal := s₁.restTotal + d.toNat } else s₁

/-- `onReady` handler: store the player ref and poll once. -/
def onReady (p : Player) (s : PanelState) : PanelState :=
  tickOnce { s with player := some p, status := .idle }

/-- `onPlay` handler: status `Playing`, poll once, arm the poll interval. -/
def onPlay (s : PanelState) : PanelState :=
  { (tickOnce { s with status := .playing }) with tickActive := true }

/-- `onPause` handler: status `Paused`, cancel polling, poll once. -/
def onPause (s : PanelState) : PanelState :=
  tickOnce { s with status := .paused, tickActive := false }

/-- `onEnd` handler: status `Ended`, cancel polling, zero the display and run
the one-shot natural-end credit. -/
def onEnd (s : PanelState) : PanelState :=
  handleEndedCount { s with status := .ended, tickActive := false, remainingSec := 0 }

/-- `onError` handler: status `Error` with the fixed playback message. -/
def onError (s : PanelState) : PanelState :=
  { s with status := .error, tickActive := false,
           errorMsg := "Video gagal diputar (embed dibatasi / region / jaringan)." }

/-- `onStateChange` handler: numeric codes 1/2/0 alias play/pause/end. -/
def onStateChange (code : ℤ) (s : PanelState) : PanelState :=
  if code = 1 then { s with status := .playing, tickActive := true }
  else if code = 2 then { s with status := .paused, tickActive := false }
  else if code = 0 then
    handleEndedCount { s with status := .ended, tickActive := false, remainingSec := 0 }
  else s

/-- Environment action: the external player advances to a new position
between polls (not repository code; the player is an injected collaborator). -/
def setPlayerTime (t : ℚ) (s : PanelState) : PanelState :=
  match s.player with
  | none => s
  | some p => { s with player := some { p with currentTime := t } }

end YtPanel

/- ======================  Concrete fixtures  ====================== -/

/-- Storage holding only a legacy `breakSec` value of 120 for the day. -/
def legacyOnlyStorage : Page.Storage :=
  fun k => if k = Page.legacyKeyOf "2025-01-15" then some 120 else none

/-- Freshly mounted page over `legacyOnlyStorage`. -/
def legacyOnlyStore : Page.Store :=
  { today := none, totalLearn := 0, totalRest := 0, storage := legacyOnlyStorage }

/-- Storage with a current-scheme `restSec` of 100 for the day. -/
def preResolveStorage : Page.Storage :=
  fun k => if k = Page.restKeyOf "2025-01-15" then some 100 else none

/-- Freshly mounted (still unresolved) page over `preResolveStorage`. -/
def preResolveStore : Page.Store :=
  { today := none, totalLearn := 0, totalRest := 0, storage := preResolveStorage }

/-- A resolved page state used to witness persistence of `addRest`. -/
def resolvedStore : Page.Store :=
  { today := some "2025-01-15", totalLearn := 0, totalRest := 20,
    storage := fun _ => none }

/-- Fresh rest panel with the spec scenario's watch URL typed in. -/
def scenarioStart : YtPanel.PanelState :=
  { input := "https://www.youtube.com/watch?v=dQw4w9WgXcQ", status := .idle,
    videoId := none, durationSec := 0, remainingSec := 0, errorMsg := "",
    player := none, tickActive := false, counted := false, restTotal := 0 }

/-- The spec scenario: start, player ready with duration 212, play, position
advances to 50, one poll, then the user stops. -/
def scenarioAfterStop : YtPanel.PanelState :=
  YtPanel.stopRestYoutube
    (YtPanel.tickOnce
      (YtPanel.setPlayerTime 50
        (YtPanel.onPlay
          (YtPanel.onReady { duration := 212, currentTime := 0 }
            (YtPanel.startRestYoutube scenarioStart)))))

/-- A panel mid-playback (poll armed) whose input box now holds junk. -/
def playingPanel : YtPanel.PanelState :=
  { input := "not a url", status := .playing, videoId := some "dQw4w9WgXcQ",
    durationSec := 212, remainingSec := 100, errorMsg := "",
    player := some { duration := 212, currentTime := 112 }, tickActive := true,
    counted := false, restTotal := 0 }

/-- A panel whose credit latch is already set. -/
def countedPanel : YtPanel.PanelState :=
  { input := "", status := .ended, videoId := some "dQw4w9WgXcQ",
    durationSec := 212, remainingSec := 0, errorMsg := "",
    player := none, tickActive := false, counted := true, restTotal := 7 }

/-- A countdown card mid-session, used to witness `stop()`. -/
def cdRunningState : Countdown.CdState :=
  { status := .running, targetSec := 300, startTs := 0, elapsedSec := 45,
    remainingSec := 255, intervalActive := true, total := 10, trace := [] }

/- ============  Helper lemmas: char-list primitives  ============ -/

theorem idChar_ne {c d : Char} (h : isIdChar c = true) (hd : isIdChar d = false) :
    c ≠ d := by
  intro e; subst e; rw [h] at hd; exact Bool.noConfusion hd

theorem idChar_not_ws {c : Char} (h : isIdChar c = true) :
    Char.isWhitespace c = false := by
  cases hw : Char.isWhitespace c with
  | false => rfl
  | true =>
    have : ((c = ' ' ∨ c = '\t') ∨ c = '\r') ∨ c = '\n' := by
      simpa [Char.isWhitespace] using hw
    rcases this with ((h1 | h1) | h1) | h1 <;> subst h1 <;> simp [isIdChar] at h

theorem takeWhile_all {p : Char → Bool} {l : List Char} (h : ∀ c ∈ l, p c = true) :
    l.takeWhile p = l := by
  induction l with
  | nil => rfl
  | cons c cs ih =>
    simp [List.takeWhile_cons, h c (by simp), ih fun x hx => h x (by simp [hx])]

theorem dropWhile_all {p : Char → Bool} {l : List Char} (h : ∀ c ∈ l, p c = true) :
    l.dropWhile p = [] := by
  induction l with
  | nil => rfl
  | cons c cs ih =>
    simp [List.dropWhile_cons, h c (by simp), ih fun x hx => h x (by simp [hx])]

theorem takeWhile_append_all {p : Char → Bool} {l₁ l₂ : List Char}
    (h : ∀ c ∈ l₁, p c = true) :
    (l₁ ++ l₂).takeWhile p = l₁ ++ l₂.takeWhile p := by
  induction l₁ with
  | nil => rfl
  | cons c cs ih =>
    simp [List.takeWhile_cons, h c (by simp), ih fun x hx => h x (by simp [hx])]

theorem dropWhile_append_all {p : Char → Bool} {l₁ l₂ : List Char}
    (h : ∀ c ∈ l₁, p c = true) :
    (l₁ ++ l₂).dropWhile p = l₂.dropWhile p := by
  induction l₁ with
  | nil => rfl
  | cons c cs ih =>
    simp [List.dropWhile_cons, h c (by simp), ih fun x hx => h x (by simp [hx])]

theorem dropWhile_eq_self_head {p : Char → Bool} {l : List Char}
    (h : ∀ c ∈ l, p c = false) : l.dropWhile p = l := by
  cases l with
  | nil => rfl
  | cons c cs => simp [List.dropWhile_cons, h c (by simp)]

theorem takeWhile_cons_false {p : Char → Bool} {c : Char} {cs : List Char}
    (h : p c = false) : (c :: cs).takeWhile p = [] := by
  simp [List.takeWhile_cons, h]

theorem dropWhile_cons_false {p : Char → Bool} {c : Char} {cs : List Char}
    (h : p c = false) : (c :: cs).dropWhile p = c :: cs := by
  simp [List.dropWhile_cons, h]

theorem trimChars_eq_self {l : List Char}
    (h : ∀ c ∈ l, Char.isWhitespace c = false) : trimChars l = l := by
  unfold trimChars
  rw [dropWhile_eq_self_head h,
      dropWhile_eq_self_head fun c hc => h c (List.mem_reverse.mp hc),
      List.reverse_reverse]

theorem splitSep_ne_nil (sep : Char) (l : List Char) : splitSep sep l ≠ [] := by
  cases l with
  | nil => simp [splitSep]
  | cons c cs =>
    by_cases hc : c = sep
    · simp [splitSep, hc]
    · simp only [splitSep, if_neg hc]
      cases splitSep sep cs <;> simp

theorem splitSep_no_sep {sep : Char} {l : List Char} (h : ∀ c ∈ l, c ≠ sep) :
    splitSep sep l = [l] := by
  induction l with
  | nil => rfl
  | cons c cs ih =>
    simp only [splitSep, if_neg (h c (by simp))]
    rw [ih fun x hx => h x (by simp [hx])]

theorem splitSep_cons_self (sep : Char) (l : List Char) :
    splitSep sep (sep :: l) = [] :: splitSep sep l := by
  simp [splitSep]

theorem splitSep_append_cons {sep : Char} {l₁ l₂ : List Char} {h2 : List Char}
    {t2 : List (List Char)} (h : ∀ c ∈ l₁, c ≠ sep)
    (hs : splitSep sep l₂ = h2 :: t2) :
    splitSep sep (l₁ ++ l₂) = (l₁ ++ h2) :: t2 := by
  induction l₁ with
  | nil => simpa using hs
  | cons c cs ih =>
    have ih' := ih fun x hx => h x (by simp [hx])
    simp only [List.cons_append, splitSep, if_neg (h c (by simp)), List.append_eq, ih']

theorem all_ne_of_decide {d : Char} {l : List Char}
    (h : l.all (fun c => decide ¬(c = d)) = true) : ∀ c ∈ l, c ≠ d := by
  intro c hc
  simpa using List.all_eq_true.mp h c hc

/- ============  Helper lemmas: the URL parser on the four shapes  ============ -/

theorem parseURL_https_shape {host rest : List Char}
    (hne : host ≠ [])
    (hhost : ∀ c ∈ host, c ≠ '/' ∧ c ≠ '?' ∧ c ≠ '#' ∧ c ≠ '@' ∧ c ≠ ':')
    (hr : rest = [] ∨ ∃ c cs, rest = c :: cs ∧ (c = '/' ∨ c = '?' ∨ c = '#')) :
    parseURL ('h' :: 't' :: 't' :: 'p' :: 's' :: ':' :: '/' :: '/' :: (host ++ rest)) =
      some { hostname := host.map Char.toLower,
             pathname := (if rest.takeWhile (fun c => !(c = '?' || c = '#')) = [] then ['/']
                          else rest.takeWhile (fun c => !(c = '?' || c = '#'))),
             query := parseQuery (match rest.dropWhile (fun c => !(c = '?' || c = '#')) with
                                  | '?' :: q => q.takeWhile (· ≠ '#')
                                  | _ => []) } := by
  have hA : ∀ c ∈ host, (!(c = '/' || c = '?' || c = '#')) = true := by
    intro c hc
    rcases hhost c hc with ⟨h1, h2, h3, -, -⟩
    simp [h1, h2, h3]
  have htw : (host ++ rest).takeWhile (fun c => !(c = '/' || c = '?' || c = '#')) = host := by
    rw [takeWhile_append_all hA]
    rcases hr with h | ⟨c, cs, hcc, hc⟩
    · simp [h]
    · subst hcc
      rw [takeWhile_cons_false (by rcases hc with h | h | h <;> simp [h])]
      simp
  have hdw : (host ++ rest).dropWhile (fun c => !(c = '/' || c = '?' || c = '#')) = rest := by
    rw [dropWhile_append_all hA]
    rcases hr with h | ⟨c, cs, hcc, hc⟩
    · simp [h]
    · subst hcc
      exact dropWhile_cons_false (by rcases hc with h | h | h <;> simp [h])
  have hsplit : splitSep '@' host = [host] :=
    splitSep_no_sep fun c hc => (hhost c hc).2.2.2.1
  have hhtw : host.takeWhile (fun c => decide ¬(c = ':')) = host :=
    takeWhile_all (by intro c hc; simp [(hhost c hc).2.2.2.2])
  unfold parseURL
  simp +decide only [List.takeWhile_cons, List.dropWhile_cons, if_true, if_false, htw, hdw,
    hsplit, hhtw, List.getLastD, List.getLast?, List.headD, Option.getD, List.append_nil]
  rw [List.getLast_singleton, hhtw, if_neg hne]

theorem validId_parts {id : List Char} (hv : isValidId11 id = true) :
    id.length = 11 ∧ ∀ c ∈ id, isIdChar c = true := by
  simpa [isValidId11, List.all_eq_true] using hv

theorem validId_ne_nil {id : List Char} (hv : isValidId11 id = true) : id ≠ [] := by
  intro e; subst e; simp [isValidId11] at hv

theorem trim_pre_id {pre id : List Char}
    (hpre : ∀ c ∈ pre, Char.isWhitespace c = false)
    (hall : ∀ c ∈ id, isIdChar c = true) :
    trimChars (pre ++ id) = pre ++ id := by
  apply trimChars_eq_self
  intro c hc
  rcases List.mem_append.mp hc with h | h
  · exact hpre c h
  · exact idChar_not_ws (hall c h)

theorem id_takeWhile_notPathEnd {id : List Char} (hall : ∀ c ∈ id, isIdChar c = true) :
    id.takeWhile (fun c => !(c = '?' || c = '#')) = id :=
  takeWhile_all fun c hc => by
    simp [idChar_ne (hall c hc) (show isIdChar '?' = false by decide),
          idChar_ne (hall c hc) (show isIdChar '#' = false by decide)]

theorem id_dropWhile_notPathEnd {id : List Char} (hall : ∀ c ∈ id, isIdChar c = true) :
    id.dropWhile (fun c => !(c = '?' || c = '#')) = [] :=
  dropWhile_all fun c hc => by
    simp [idChar_ne (hall c hc) (show isIdChar '?' = false by decide),
          idChar_ne (hall c hc) (show isIdChar '#' = false by decide)]

theorem id_ne_word {id w : List Char} (hlen : id.length = 11) (hw : w.length ≠ 11) :
    id ≠ w := by
  intro e; rw [e] at hlen; exact hw hlen

theorem extract_bare {id : List Char} (hv : isValidId11 id = true) :
    extractCore id = some id := by
  obtain ⟨-, hall⟩ := validId_parts hv
  have htrim : trimChars id = id :=
    trimChars_eq_self fun c hc => idChar_not_ws (hall c hc)
  simp only [extractCore, htrim, hv, if_true]

theorem extract_shortlink {id : List Char} (hv : isValidId11 id = true) :
    extractCore ("https://youtu.be/".data ++ id) = some id := by
  obtain ⟨hlen, hall⟩ := validId_parts hv
  have htrim : trimChars ("https://youtu.be/".data ++ id) = "https://youtu.be/".data ++ id :=
    trim_pre_id (by decide) hall
  have hbig : isValidId11 ("https://youtu.be/".data ++ id) = false := by
    simp [isValidId11, hlen]
  have hform : "https://youtu.be/".data ++ id =
      'h' :: 't' :: 't' :: 'p' :: 's' :: ':' :: '/' :: '/' :: ("youtu.be".data ++ ('/' :: id)) := rfl
  have htkw : ('/' :: id).takeWhile (fun c => !(c = '?' || c = '#')) = '/' :: id := by
    simp only [List.takeWhile_cons]
    rw [if_pos (by decide), id_takeWhile_notPathEnd hall]
  have hdrw : ('/' :: id).dropWhile (fun c => !(c = '?' || c = '#')) = [] := by
    simp only [List.dropWhile_cons]
    rw [if_pos (by decide)]
    exact id_dropWhile_notPathEnd hall
  have hu : parseURL ("https://youtu.be/".data ++ id) =
      some { hostname := "youtu.be".data.map Char.toLower,
             pathname := '/' :: id, query := [] } := by
    rw [hform, parseURL_https_shape (by decide) (by decide) (Or.inr ⟨'/', id, rfl, Or.inl rfl⟩),
        htkw, hdrw]
    simp +decide
  have hseg : pathSegments ('/' :: id) = [id] := by
    unfold pathSegments
    have hs : splitSep '/' ('/' :: id) = [] :: [id] := by
      rw [splitSep_cons_self, splitSep_no_sep fun c hc => idChar_ne (hall c hc) (by decide)]
    rw [hs]
    simp [validId_ne_nil hv]
  simp only [extractCore, htrim, hbig, Bool.false_eq_true, if_false, hu,
    (by decide : containsSub "youtu.be".data ("youtu.be".data.map Char.toLower) = true),
    if_true, hseg, hv]

theorem extract_watch {id : List Char} (hv : isValidId11 id = true) :
    extractCore ("https://www.youtube.com/watch?v=".data ++ id) = some id := by
  obtain ⟨hlen, hall⟩ := validId_parts hv
  have htrim : trimChars ("https://www.youtube.com/watch?v=".data ++ id) =
      "https://www.youtube.com/watch?v=".data ++ id := trim_pre_id (by decide) hall
  have hbig : isValidId11 ("https://www.youtube.com/watch?v=".data ++ id) = false := by
    simp [isValidId11, hlen]
  have hform : "https://www.youtube.com/watch?v=".data ++ id =
      'h' :: 't' :: 't' :: 'p' :: 's' :: ':' :: '/' :: '/' ::
        ("www.youtube.com".data ++ ('/' :: ("watch?v=".data ++ id))) := rfl
  have hform2 : ('/' :: ("watch?v=".data ++ id)) =
      "/watch".data ++ ('?' :: ("v=".data ++ id)) := rfl
  have htkw : ('/' :: ("watch?v=".data ++ id)).takeWhile (fun c => !(c = '?' || c = '#')) =
      "/watch".data := by
    rw [hform2, takeWhile_append_all (by decide), takeWhile_cons_false (by decide),
        List.append_nil]
  have hdrw : ('/' :: ("watch?v=".data ++ id)).dropWhile (fun c => !(c = '?' || c = '#')) =
      '?' :: ("v=".data ++ id) := by
    rw [hform2, dropWhile_append_all (by decide), dropWhile_cons_false (by decide)]
  have hqs : ("v=".data ++ id).takeWhile (fun c => decide ¬(c = '#')) = "v=".data ++ id := by
    rw [takeWhile_append_all (by decide),
        takeWhile_all fun c hc => by
          simp [idChar_ne (hall c hc) (show isIdChar '#' = false by decide)]]
  have hpair : parseQueryPair ('v' :: '=' :: id) = (['v'], id) := by
    unfold parseQueryPair
    simp +decide only [List.takeWhile_cons, List.dropWhile_cons, if_true, if_false]
  have hamp : ∀ c ∈ ("v=".data ++ id), c ≠ '&' := by
    intro c hc
    rcases List.mem_append.mp hc with h | h
    · exact all_ne_of_decide (by decide) c h
    · exact idChar_ne (hall c h) (by decide)
  have hq : parseQuery ("v=".data ++ id) = [(['v'], id)] := by
    unfold parseQuery
    rw [splitSep_no_sep hamp,
        show ("v=".data ++ id : List Char) = 'v' :: '=' :: id from rfl,
        List.filter_cons, if_pos (by simp), List.filter_nil, List.map_cons, List.map_nil, hpair]
  have hu : parseURL ("https://www.youtube.com/watch?v=".data ++ id) =
      some { hostname := "www.youtube.com".data.map Char.toLower,
             pathname := "/watch".data, query := [(['v'], id)] } := by
    rw [hform, parseURL_https_shape (by decide) (by decide)
          (Or.inr ⟨'/', "watch?v=".data ++ id, rfl, Or.inl rfl⟩), htkw, hdrw]
    simp only [hqs, hq]
    simp +decide
  have hget : getParam [(['v'], id)] "v".data = some id := by
    simp +decide [getParam, List.find?]
  simp only [extractCore, htrim, hbig, Bool.false_eq_true, if_false, hu,
    (by decide : containsSub "youtu.be".data ("www.youtube.com".data.map Char.toLower) = false),
    hget, validId_ne_nil hv, hv]
  simp [validId_ne_nil hv]

theorem extract_embed {id : List Char} (hv : isValidId11 id = true) :
    extractCore ("https://www.youtube.com/embed/".data ++ id) = some id := by
  obtain ⟨hlen, hall⟩ := validId_parts hv
  have htrim : trimChars ("https://www.youtube.com/embed/".data ++ id) =
      "https://www.youtube.com/embed/".data ++ id := trim_pre_id (by decide) hall
  have hbig : isValidId11 ("https://www.youtube.com/embed/".data ++ id) = false := by
    simp [isValidId11, hlen]
  have hform : "https://www.youtube.com/embed/".data ++ id =
      'h' :: 't' :: 't' :: 'p' :: 's' :: ':' :: '/' :: '/' ::
        ("www.youtube.com".data ++ ('/' :: ("embed/".data ++ id))) := rfl
  have htkw : ('/' :: ("embed/".data ++ id)).takeWhile (fun c => !(c = '?' || c = '#')) =
      '/' :: ("embed/".data ++ id) := by
    simp only [List.takeWhile_cons]
    rw [if_pos (by decide), takeWhile_append_all (by decide), id_takeWhile_notPathEnd hall]
  have hdrw : ('/' :: ("embed/".data ++ id)).dropWhile (fun c => !(c = '?' || c = '#')) = [] := by
    simp only [List.dropWhile_cons]
    rw [if_pos (by decide), dropWhile_append_all (by decide)]
    exact id_dropWhile_notPathEnd hall
  have hu : parseURL ("https://www.youtube.com/embed/".data ++ id) =
      some { hostname := "www.youtube.com".data.map Char.toLower,
             pathname := '/' :: ("embed/".data ++ id), query := [] } := by
    rw [hform, parseURL_https_shape (by decide) (by decide)
          (Or.inr ⟨'/', "embed/".data ++ id, rfl, Or.inl rfl⟩), htkw, hdrw]
    simp +decide
  have hseg : pathSegments ('/' :: ("embed/".data ++ id)) = ["embed".data, id] := by
    unfold pathSegments
    rw [splitSep_cons_self,
        show ("embed/".data ++ id : List Char) = "embed".data ++ ('/' :: id) from rfl,
        splitSep_append_cons (all_ne_of_decide (by decide))
          (by rw [splitSep_cons_self,
                  splitSep_no_sep fun c hc => idChar_ne (hall c hc) (by decide)]),
        List.append_nil]
    simp [validId_ne_nil hv]
  have hget0 : getParam ([] : List (List Char × List Char)) "v".data = none := rfl
  have hmarkE : idAfterMarker "embed".data ["embed".data, id] = some id := by
    simp [idAfterMarker]
  simp only [extractCore, htrim, hbig, Bool.false_eq_true, if_false, hu,
    (by decide : containsSub "youtu.be".data ("www.youtube.com".data.map Char.toLower) = false),
    hseg, hget0, hmarkE, hv, if_true]

theorem extract_shorts {id : List Char} (hv : isValidId11 id = true) :
    extractCore ("https://www.youtube.com/shorts/".data ++ id) = some id := by
  obtain ⟨hlen, hall⟩ := validId_parts hv
  have htrim : trimChars ("https://www.youtube.com/shorts/".data ++ id) =
      "https://www.youtube.com/shorts/".data ++ id := trim_pre_id (by decide) hall
  have hbig : isValidId11 ("https://www.youtube.com/shorts/".data ++ id) = false := by
    simp [isValidId11, hlen]
  have hform : "https://www.youtube.com/shorts/".data ++ id =
      'h' :: 't' :: 't' :: 'p' :: 's' :: ':' :: '/' :: '/' ::
        ("www.youtube.com".data ++ ('/' :: ("shorts/".data ++ id))) := rfl
  have htkw : ('/' :: ("shorts/".data ++ id)).takeWhile (fun c => !(c = '?' || c = '#')) =
      '/' :: ("shorts/".data ++ id) := by
    simp only [List.takeWhile_cons]
    rw [if_pos (by decide), takeWhile_append_all (by decide), id_takeWhile_notPathEnd hall]
  have hdrw : ('/' :: ("shorts/".data ++ id)).dropWhile (fun c => !(c = '?' || c = '#')) = [] := by
    simp only [List.dropWhile_cons]
    rw [if_pos (by decide), dropWhile_append_all (by decide)]
    exact id_dropWhile_notPathEnd hall
  have hu : parseURL ("https://www.youtube.com/shorts/".data ++ id) =
      some { hostname := "www.youtube.com".data.map Char.toLower,
             pathname := '/' :: ("shorts/".data ++ id), query := [] } := by
    rw [hform, parseURL_https_shape (by decide) (by decide)
          (Or.inr ⟨'/', "shorts/".data ++ id, rfl, Or.inl rfl⟩), htkw, hdrw]
    simp +decide
  have hseg : pathSegments ('/' :: ("shorts/".data ++ id)) = ["shorts".data, id] := by
    unfold pathSegments
    rw [splitSep_cons_self,
        show ("shorts/".data ++ id : List Char) = "shorts".data ++ ('/' :: id) from rfl,
        splitSep_append_cons (all_ne_of_decide (by decide))
          (by rw [splitSep_cons_self,
                  splitSep_no_sep fun c hc => idChar_ne (hall c hc) (by decide)]),
        List.append_nil]
    simp [validId_ne_nil hv]
  have hmark : idAfterMarker "embed".data ["shorts".data, id] = none := by
    simp only [idAfterMarker]
    rw [if_neg (by decide), if_neg (id_ne_word hlen (by decide))]
  have hget0 : getParam ([] : List (List Char × List Char)) "v".data = none := rfl
  have hmarkS : idAfterMarker "shorts".data ["shorts".data, id] = some id := by
    simp [idAfterMarker]
  simp only [extractCore, htrim, hbig, Bool.false_eq_true, if_false, hu,
    (by decide : containsSub "youtu.be".data ("www.youtube.com".data.map Char.toLower) = false),
    hseg, hget0, hmark, hmarkS, hv, if_true]

theorem extractCore_invalid {l : List Char}
    (h1 : isValidId11 (trimChars l) = false) (h2 : parseURL (trimChars l) = none) :
    extractCore l = none := by
  simp only [extractCore, h1, Bool.false_eq_true, if_false, h2]

theorem extractCore_sound {l id : List Char} (h : extractCore l = some id) :
    isValidId11 id = true := by
  simp only [extractCore] at h
  repeat' split at h
  all_goals simp_all

theorem parseURL_none_of_validId {l : List Char} (hv : isValidId11 l = true) :
    parseURL l = none := by
  obtain ⟨-, hall⟩ := validId_parts hv
  have hd : l.dropWhile (fun c => decide ¬(c = ':')) = [] :=
    dropWhile_all fun c hc => by
      simp [idChar_ne (hall c hc) (show isIdChar ':' = false by decide)]
  unfold parseURL
  simp only [hd]

theorem notValid_of_parseURL_some {l : List Char} {u : URLParts}
    (hp : parseURL l = some u) : isValidId11 l = false := by
  cases hval : isValidId11 l
  · rfl
  · rw [parseURL_none_of_validId hval] at hp
    cases hp

theorem extract_bare_general {l : List Char} (hv : isValidId11 (trimChars l) = true) :
    extractCore l = some (trimChars l) := by
  simp only [extractCore, hv, if_true]

theorem extract_shortlink_general {l id : List Char} {u : URLParts} {t : List (List Char)}
    (hp : parseURL (trimChars l) = some u)
    (hyt : containsSub "youtu.be".data u.hostname = true)
    (hseg : pathSegments u.pathname = id :: t)
    (hv : isValidId11 id = true) :
    extractCore l = some id := by
  simp only [extractCore, notValid_of_parseURL_some hp, Bool.false_eq_true, if_false,
    hp, hyt, if_true, hseg, hv]

theorem extract_watch_general {l id : List Char} {u : URLParts}
    (hp : parseURL (trimChars l) = some u)
    (hyt : containsSub "youtu.be".data u.hostname = false)
    (hg : getParam u.query "v".data = some id)
    (hne : id ≠ []) (hv : isValidId11 id = true) :
    extractCore l = some id := by
  simp only [extractCore, notValid_of_parseURL_some hp, Bool.false_eq_true, if_false,
    hp, hyt, hg, hv]
  simp [hne]

theorem extract_embed_general {l id : List Char} {u : URLParts}
    (hp : parseURL (trimChars l) = some u)
    (hyt : containsSub "youtu.be".data u.hostname = false)
    (hvq : ∀ v, getParam u.query "v".data = some v →
      (decide (v ≠ []) && isValidId11 v) = false)
    (hm : idAfterMarker "embed".data (pathSegments u.pathname) = some id)
    (hv : isValidId11 id = true) :
    extractCore l = some id := by
  rcases hg : getParam u.query "v".data with _ | v
  · simp only [extractCore, notValid_of_parseURL_some hp, Bool.false_eq_true, if_false,
      hp, hyt, hg, hm, hv, if_true]
  · simp only [extractCore, notValid_of_parseURL_some hp, Bool.false_eq_true, if_false,
      hp, hyt, hg, hvq v hg, hm, hv, if_true]

theorem extract_shorts_general {l id : List Char} {u : URLParts}
    (hp : parseURL (trimChars l) = some u)
    (hyt : containsSub "youtu.be".data u.hostname = false)
    (hvq : ∀ v, getParam u.query "v".data = some v →
      (decide (v ≠ []) && isValidId11 v) = false)
    (hemb : ∀ n, idAfterMarker "embed".data (pathSegments u.pathname) = some n →
      isValidId11 n = false)
    (hs : idAfterMarker "shorts".data (pathSegments u.pathname) = some id)
    (hv : isValidId11 id = true) :
    extractCore l = some id := by
  have hvf := notValid_of_parseURL_some hp
  rcases he : idAfterMarker "embed".data (pathSegments u.pathname) with _ | n
  · rcases hg : getParam u.query "v".data with _ | v
    · simp only [extractCore, hvf, Bool.false_eq_true, if_false, hp, hyt, hg, he, hs, hv,
        if_true]
    · simp only [extractCore, hvf, Bool.false_eq_true, if_false, hp, hyt, hg, hvq v hg,
        he, hs, hv, if_true]
  · have hn := hemb n he
    rcases hg : getParam u.query "v".data with _ | v
    · simp only [extractCore, hvf, Bool.false_eq_true, if_false, hp, hyt, hg, he, hn, hs,
        hv, if_true]
    · simp only [extractCore, hvf, Bool.false_eq_true, if_false, hp, hyt, hg, hvq v hg,
        he, hn, hs, hv, if_true]

theorem extractCore_shapes {l id : List Char} (h : extractCore l = some id) :
    (isValidId11 (trimChars l) = true ∧ id = trimChars l)
    ∨ ∃ u, parseURL (trimChars l) = some u ∧
        ((containsSub "youtu.be".data u.hostname = true ∧
            ∃ t, pathSegments u.pathname = id :: t)
         ∨ (containsSub "youtu.be".data u.hostname = false ∧
            getParam u.query "v".data = some id)
         ∨ (containsSub "youtu.be".data u.hostname = false ∧
            (idAfterMarker "embed".data (pathSegments u.pathname) = some id ∨
             idAfterMarker "shorts".data (pathSegments u.pathname) = some id))) := by
  simp only [extractCore] at h
  split at h
  · next hv =>
    exact Or.inl ⟨hv, (Option.some.inj h).symm⟩
  · next hv =>
    split at h
    · exact absurd h (by simp)
    · next u heq =>
      split at h
      · next hyt =>
        split at h
        · exact absurd h (by simp)
        · next id2 t hseg =>
          split at h
          · next hv2 =>
            refine Or.inr ⟨u, heq, Or.inl ⟨hyt, t, ?_⟩⟩
            rw [hseg, Option.some.inj h]
          · exact absurd h (by simp)
      · next hyt =>
        have hytF : containsSub "youtu.be".data u.hostname = false := by
          revert hyt; cases containsSub "youtu.be".data u.hostname <;> simp
        split at h
        · next v hg =>
          split at h
          · next hcond =>
            refine Or.inr ⟨u, heq, Or.inr (Or.inl ⟨hytF, ?_⟩)⟩
            rw [hg, Option.some.inj h]
          · next hcond =>
            rcases he : idAfterMarker "embed".data (pathSegments u.pathname) with _ | n <;>
              simp only [he] at h
            · rcases hs : idAfterMarker "shorts".data (pathSegments u.pathname)
                with _ | n2 <;> simp only [hs] at h
              · exact absurd h (by simp)
              · split at h
                · refine Or.inr ⟨u, heq, Or.inr (Or.inr ⟨hytF, Or.inr ?_⟩)⟩
                  rw [hs, Option.some.inj h]
                · exact absurd h (by simp)
            · split at h
              · refine Or.inr ⟨u, heq, Or.inr (Or.inr ⟨hytF, Or.inl ?_⟩)⟩
                rw [he, Option.some.inj h]
              · rcases hs : idAfterMarker "shorts".data (pathSegments u.pathname)
                  with _ | n2 <;> simp only [hs] at h
                · exact absurd h (by simp)
                · split at h
                  · refine Or.inr ⟨u, heq, Or.inr (Or.inr ⟨hytF, Or.inr ?_⟩)⟩
                    rw [hs, Option.some.inj h]
                  · exact absurd h (by simp)
        · next hg =>
          rcases he : idAfterMarker "embed".data (pathSegments u.pathname) with _ | n <;>
            simp only [he] at h
          · rcases hs : idAfterMarker "shorts".data (pathSegments u.pathname)
              with _ | n2 <;> simp only [hs] at h
            · exact absurd h (by simp)
            · split at h
              · refine Or.inr ⟨u, heq, Or.inr (Or.inr ⟨hytF, Or.inr ?_⟩)⟩
                rw [hs, Option.some.inj h]
              · exact absurd h (by simp)
          · split at h
            · refine Or.inr ⟨u, heq, Or.inr (Or.inr ⟨hytF, Or.inl ?_⟩)⟩
              rw [he, Option.some.inj h]
            · rcases hs : idAfterMarker "shorts".data (pathSegments u.pathname)
                with _ | n2 <;> simp only [hs] at h
              · exact absurd h (by simp)
              · split at h
                · refine Or.inr ⟨u, heq, Or.inr (Or.inr ⟨hytF, Or.inr ?_⟩)⟩
                  rw [hs, Option.some.inj h]
                · exact absurd h (by simp)

/- ============  Helper lemmas: countdown invariant  ============ -/

theorem cdInv_init : Countdown.CdInv Countdown.init := by
  unfold Countdown.CdInv Countdown.init
  refine ⟨?_, ?_, ?_⟩ <;> simp

theorem cdInv_start (m : ℚ) (now : ℕ) {s : Countdown.CdState} :
    Countdown.CdInv (Countdown.start m now s) := by
  unfold Countdown.CdInv Countdown.start
  refine ⟨?_, ?_, ?_⟩ <;> simp

theorem cdInv_tick (now : ℕ) {s : Countdown.CdState} (h : Countdown.CdInv s) :
    Countdown.CdInv (Countdown.tick now s) := by
  obtain ⟨h1, h2, h3⟩ := h
  by_cases ha : s.intervalActive = false
  · have hs : Countdown.tick now s = s := by simp [Countdown.tick, ha]
    rw [hs]; exact ⟨h1, h2, h3⟩
  · have hrun : s.status = .running := h3 (by revert ha; cases s.intervalActive <;> simp)
    by_cases hz : s.targetSec - (now - s.startTs) / 1000 = 0
    · have hs : Countdown.tick now s =
        { s with elapsedSec := (now - s.startTs) / 1000,
                 remainingSec := s.targetSec - (now - s.startTs) / 1000,
                 intervalActive := false, status := .done,
                 total := s.total + s.targetSec,
                 trace := s.trace ++ [.credit s.targetSec, .notify] } := by
        simp [Countdown.tick, ha, hz]
      rw [hs]
      refine ⟨by simp, ?_, by simp⟩
      intro _
      constructor
      · simpa using hz
      · simp only []
        omega
    · have hs : Countdown.tick now s =
        { s with elapsedSec := (now - s.startTs) / 1000,
                 remainingSec := s.targetSec - (now - s.startTs) / 1000 } := by
        simp [Countdown.tick, ha, hz]
      rw [hs]
      refine ⟨?_, by simp [hrun], by simp [hrun]⟩
      intro _
      simp only []
      omega

theorem cdInv_stop {s : Countdown.CdState} (h : Countdown.CdInv s) :
    Countdown.CdInv (Countdown.stop s) := by
  obtain ⟨h1, h2, h3⟩ := h
  unfold Countdown.CdInv Countdown.stop
  by_cases hr : s.status = .running
  · simp [hr]
  · rw [if_pos hr]
    exact ⟨h1, h2, h3⟩

theorem cdInv_run (ops : List Countdown.Op) : Countdown.CdInv (Countdown.run ops) := by
  unfold Countdown.run
  induction ops using List.reverseRecOn with
  | nil => exact cdInv_init
  | append_singleton xs x ih =>
    rw [List.foldl_append]
    cases x with
    | start m now => exact cdInv_start m now
    | tick now => exact cdInv_tick now ih
    | stop => exact cdInv_stop ih

theorem tick_remaining_antitone {s : Countdown.CdState} {n₁ n₂ : ℕ} (h : n₁ ≤ n₂) :
    (Countdown.tick n₂ (Countdown.tick n₁ s)).remainingSec ≤
      (Countdown.tick n₁ s).remainingSec := by
  unfold Countdown.tick
  by_cases ha : s.intervalActive = false
  · simp only [ha, if_true]
    by_cases ha' : s.intervalActive = false <;> simp [ha']
  · simp only [ha, if_false]
    by_cases hz : s.targetSec - (n₁ - s.startTs) / 1000 = 0
    · simp [hz]
    · simp only [hz, if_false]
      by_cases hz2 : s.targetSec - (n₂ - s.startTs) / 1000 = 0 <;>
        simp [hz2] <;> omega

/- ============  Helper lemmas: daily totals store  ============ -/

theorem resolveDay_storage_unchanged (s : Page.Store) (d k : String) :
    (Page.resolveDay d s).storage k = s.storage k := by
  simp only [Page.resolveDay, Page.orElseNum]
  by_cases hz : Page.readNumber s.storage (Page.restKeyOf d) = 0
  · rw [if_pos hz, if_neg (by omega :
      ¬(Page.readNumber s.storage (Page.legacyKeyOf d) = 0 ∧
        Page.readNumber s.storage (Page.legacyKeyOf d) > 0))]
  · rw [if_neg hz, if_neg (fun hh => hz hh.1)]

theorem restKey_ne_legacyKey (d : String) : Page.restKeyOf d ≠ Page.legacyKeyOf d := by
  intro e
  have hl := congrArg String.length e
  simp [Page.restKeyOf, Page.legacyKeyOf, String.length_append] at hl
  exact absurd hl (by decide)

theorem learnKey_ne_restKey (d : String) : Page.learnKeyOf d ≠ Page.restKeyOf d := by
  intro e
  have hl := congrArg String.length e
  simp [Page.learnKeyOf, Page.restKeyOf, String.length_append] at hl
  exact absurd hl (by decide)

theorem learnKey_ne_legacyKey (d : String) : Page.learnKeyOf d ≠ Page.legacyKeyOf d := by
  intro e
  have hd := congrArg String.data e
  simp only [Page.learnKeyOf, Page.legacyKeyOf, String.data_append] at hd
  have h2 := List.append_cancel_left hd
  exact absurd h2 (by decide)

/- ============  Helper lemmas: player-driven panel  ============ -/

theorem handleEnded_noop_of_counted (s : YtPanel.PanelState) (h : s.counted = true) :
    YtPanel.handleEndedCount s = s := by
  unfold YtPanel.handleEndedCount; simp [h]

theorem handleEnded_sets_counted (s : YtPanel.PanelState) :
    (YtPanel.handleEndedCount s).counted = true := by
  by_cases hc : s.counted = true
  · rw [handleEnded_noop_of_counted s hc]; exact hc
  · unfold YtPanel.handleEndedCount
    simp only [Bool.not_eq_true] at hc
    simp only [hc, Bool.false_eq_true, if_false]
    repeat' split
    all_goals rfl

theorem handleEnded_idem (s : YtPanel.PanelState) :
    YtPanel.handleEndedCount (YtPanel.handleEndedCount s) = YtPanel.handleEndedCount s :=
  handleEnded_noop_of_counted _ (handleEnded_sets_counted s)

theorem counted_no_recredit (s : YtPanel.PanelState) (h : s.counted = true) :
    (YtPanel.onEnd s).restTotal = s.restTotal
    ∧ (YtPanel.onStateChange 0 s).restTotal = s.restTotal
    ∧ (YtPanel.stopRestYoutube s).restTotal = s.restTotal
    ∧ (YtPanel.handleEndedCount s).restTotal = s.restTotal := by
  have hh : ∀ t : YtPanel.PanelState, t.counted = true →
      (YtPanel.handleEndedCount t).restTotal = t.restTotal := by
    intro t ht
    unfold YtPanel.handleEndedCount
    simp [ht]
  refine ⟨?_, ?_, ?_, hh s h⟩
  · unfold YtPanel.onEnd
    exact hh _ h
  · unfold YtPanel.onStateChange
    norm_num
    exact hh _ h
  · unfold YtPanel.stopRestYoutube
    cases s.player with
    | none => rfl
    | some p => simp [h]

theorem scenario_eval :
    scenarioAfterStop.restTotal = 50
    ∧ scenarioAfterStop.counted = true
    ∧ (YtPanel.onEnd scenarioAfterStop).restTotal = 50 := by
  have h1 : YtPanel.startRestYoutube scenarioStart =
      { input := "https://www.youtube.com/watch?v=dQw4w9WgXcQ", status := .idle,
        videoId := some "dQw4w9WgXcQ", durationSec := 0, remainingSec := 0, errorMsg := "",
        player := none, tickActive := false, counted := false, restTotal := 0 } := by
    unfold YtPanel.startRestYoutube scenarioStart
    rw [show extractYouTubeVideoId "https://www.youtube.com/watch?v=dQw4w9WgXcQ" =
      some "dQw4w9WgXcQ" by decide]
  have h2 : YtPanel.onReady { duration := 212, currentTime := 0 }
      (YtPanel.startRestYoutube scenarioStart) =
      { input := "https://www.youtube.com/watch?v=dQw4w9WgXcQ", status := .idle,
        videoId := some "dQw4w9WgXcQ", durationSec := 212, remainingSec := 212,
        errorMsg := "", player := some { duration := 212, currentTime := 0 },
        tickActive := false, counted := false, restTotal := 0 } := by
    rw [h1]
    unfold YtPanel.onReady YtPanel.tickOnce
    norm_num
    decide
  have h3 : YtPanel.setPlayerTime 50 (YtPanel.onPlay (YtPanel.onReady
      { duration := 212, currentTime := 0 } (YtPanel.startRestYoutube scenarioStart))) =
      { input := "https://www.youtube.com/watch?v=dQw4w9WgXcQ", status := .playing,
        videoId := some "dQw4w9WgXcQ", durationSec := 212, remainingSec := 212,
        errorMsg := "", player := some { duration := 212, currentTime := 50 },
        tickActive := true, counted := false, restTotal := 0 } := by
    rw [h2]
    unfold YtPanel.onPlay YtPanel.tickOnce YtPanel.setPlayerTime
    norm_num
    decide
  have h4 : YtPanel.tickOnce (YtPanel.setPlayerTime 50 (YtPanel.onPlay (YtPanel.onReady
      { duration := 212, currentTime := 0 } (YtPanel.startRestYoutube scenarioStart)))) =
      { input := "https://www.youtube.com/watch?v=dQw4w9WgXcQ", status := .playing,
        videoId := some "dQw4w9WgXcQ", durationSec := 212, remainingSec := 162,
        errorMsg := "", player := some { duration := 212, currentTime := 50 },
        tickActive := true, counted := false, restTotal := 0 } := by
    rw [h3]
    unfold YtPanel.tickOnce
    norm_num
    decide
  have h5 : scenarioAfterStop =
      { input := "https://www.youtube.com/watch?v=dQw4w9WgXcQ", status := .idle,
        videoId := none, durationSec := 0, remainingSec := 0,
        errorMsg := "", player := some { duration := 212, currentTime := 50 },
        tickActive := false, counted := true, restTotal := 50 } := by
    unfold scenarioAfterStop
    rw [h4]
    unfold YtPanel.stopRestYoutube
    norm_num
  refine ⟨by rw [h5], by rw [h5], ?_⟩
  rw [h5]
  unfold YtPanel.onEnd
  rw [handleEnded_noop_of_counted _ rfl]

theorem stop_sets_counted (s : YtPanel.PanelState) (p : YtPanel.Player)
    (h : s.player = some p) : (YtPanel.stopRestYoutube s).counted = true := by
  unfold YtPanel.stopRestYoutube
  rw [h]
  by_cases hc : s.counted = false
  · simp [hc]
  · simp only [hc, Bool.false_eq_true, if_false]
    simp only [Bool.not_eq_false] at hc
    simpa using hc

/- ======================  Claim theorems  ====================== -/

/-- C1: the Player-Driven engine credits a playback session's watched time at
most once.  The natural-end handler is idempotent (a second call is a no-op),
any terminal trigger (`onEnd`, a state-change code 0, an explicit stop, or
the shared one-shot handler) adds nothing once the `counted` latch is true,
every terminal path sets the latch, and in the spec scenario
(duration 212, user stop at currentTime 50) the Rest total grows by exactly
50 (not 212), the latch becomes true, and a subsequent natural-end signal
adds nothing. -/
theorem player_credits_at_most_once :
    (∀ s : YtPanel.PanelState,
        YtPanel.handleEndedCount (YtPanel.handleEndedCount s) = YtPanel.handleEndedCount s)
    ∧ (∀ s : YtPanel.PanelState, s.counted = true →
        (YtPanel.onEnd s).restTotal = s.restTotal
        ∧ (YtPanel.onStateChange 0 s).restTotal = s.restTotal
        ∧ (YtPanel.stopRestYoutube s).restTotal = s.restTotal
        ∧ (YtPanel.handleEndedCount s).restTotal = s.restTotal)
    ∧ (∀ s : YtPanel.PanelState, (YtPanel.handleEndedCount s).counted = true)
    ∧ (∀ (s : YtPanel.PanelState) (p : YtPanel.Player), s.player = some p →
        (YtPanel.stopRestYoutube s).counted = true)
    ∧ scenarioAfterStop.restTotal = 50
    ∧ scenarioAfterStop.counted = true
    ∧ (YtPanel.onEnd scenarioAfterStop).restTotal = 50 :=
  ⟨handleEnded_idem, counted_no_recredit, handleEnded_sets_counted, stop_sets_counted,
   scenario_eval.1, scenario_eval.2.1, scenario_eval.2.2⟩

theorem player_credits_at_most_once_witness :
    YtPanel.handleEndedCount (YtPanel.handleEndedCount countedPanel) =
      YtPanel.handleEndedCount countedPanel
    ∧ (YtPanel.onEnd countedPanel).restTotal = countedPanel.restTotal :=
  ⟨player_credits_at_most_once.1 countedPanel,
   (player_credits_at_most_once.2.1 countedPanel rfl).1⟩

/-- C2 (counterexample): a delayed final tick (e.g. after tab throttling)
reaches `Done` with `elapsedSec = 65` and `remainingSec = 0` against
`targetSec = 60`, so `elapsedSeconds + remainingSeconds = targetSeconds`
does not hold in every Running/Done state as claimed. -/
theorem countdown_invariant_counterexample :
    (Countdown.run [.start 1 0, .tick 30000, .tick 65000]).status = .done
    ∧ (Countdown.run [.start 1 0, .tick 30000, .tick 65000]).elapsedSec +
        (Countdown.run [.start 1 0, .tick 30000, .tick 65000]).remainingSec ≠
        (Countdown.run [.start 1 0, .tick 30000, .tick 65000]).targetSec := by
  decide

/-- C2 (amended): in every reachable state, while `Running` the equation
`elapsedSeconds + remainingSeconds = targetSeconds` holds exactly; in `Done`
`remainingSeconds = 0` and `elapsedSeconds ≥ targetSeconds` (equality only
when the final tick lands on the boundary); and across successive ticks the
remaining time is monotonically non-increasing. -/
theorem countdown_invariant_amended :
    (∀ ops : List Countdown.Op, Countdown.CdInv (Countdown.run ops))
    ∧ (∀ (s : Countdown.CdState) (n₁ n₂ : ℕ), n₁ ≤ n₂ →
        (Countdown.tick n₂ (Countdown.tick n₁ s)).remainingSec ≤
          (Countdown.tick n₁ s).remainingSec) :=
  ⟨cdInv_run, fun _ _ _ h => tick_remaining_antitone h⟩

theorem countdown_invariant_amended_witness :
    Countdown.CdInv (Countdown.run [.start 1 0, .tick 30000])
    ∧ (Countdown.tick 2000 (Countdown.tick 1000 cdRunningState)).remainingSec ≤
        (Countdown.tick 1000 cdRunningState).remainingSec :=
  ⟨countdown_invariant_amended.1 [.start 1 0, .tick 30000],
   countdown_invariant_amended.2 cdRunningState 1000 2000 (by decide)⟩

/-- C3: the resolver contract.  (i) For every valid 11-character id, each of
the four canonical URL skeletons (and the bare id itself) resolves to that
id.  (ii)–(vi) More generally, *every* input string of one of the four
recognized shapes resolves to its id: any input trimming to a bare valid id;
any URL whose host contains `youtu.be` and whose first non-empty path
segment is a valid id; any non-short-link URL carrying a usable `v` query
parameter (extra parameters, paths and fragments allowed); and any
non-short-link URL whose path has an `embed` (resp. `shorts`) marker
immediately followed by a valid id, when no earlier rule fires.
(vii) Every returned id is 11 characters from `[A-Za-z0-9_-]`.
(viii) Completeness: a successful resolution can only arise from one of the
four shapes — contrapositively, every other input string, parseable or not,
returns `Invalid`.  (ix) URL-parse failures return `Invalid` (the function
is total: nothing throws).  (x) Concrete parseable non-shape URLs return
`Invalid`. -/
theorem resolver_contract :
    (∀ id : List Char, isValidId11 id = true →
        extractYouTubeVideoId ⟨id⟩ = some ⟨id⟩
      ∧ extractYouTubeVideoId ("https://youtu.be/" ++ (⟨id⟩ : String)) = some ⟨id⟩
      ∧ extractYouTubeVideoId ("https://www.youtube.com/watch?v=" ++ (⟨id⟩ : String)) =
          some ⟨id⟩
      ∧ extractYouTubeVideoId ("https://www.youtube.com/embed/" ++ (⟨id⟩ : String)) =
          some ⟨id⟩
      ∧ extractYouTubeVideoId ("https://www.youtube.com/shorts/" ++ (⟨id⟩ : String)) =
          some ⟨id⟩)
    ∧ (∀ s : String, isValidId11 (trimChars s.data) = true →
        extractYouTubeVideoId s = some ⟨trimChars s.data⟩)
    ∧ (∀ (s : String) (u : URLParts) (id : List Char) (t : List (List Char)),
        parseURL (trimChars s.data) = some u →
        containsSub "youtu.be".data u.hostname = true →
        pathSegments u.pathname = id :: t →
        isValidId11 id = true →
        extractYouTubeVideoId s = some ⟨id⟩)
    ∧ (∀ (s : String) (u : URLParts) (id : List Char),
        parseURL (trimChars s.data) = some u →
        containsSub "youtu.be".data u.hostname = false →
        getParam u.query "v".data = some id →
        id ≠ [] → isValidId11 id = true →
        extractYouTubeVideoId s = some ⟨id⟩)
    ∧ (∀ (s : String) (u : URLParts) (id : List Char),
        parseURL (trimChars s.data) = some u →
        containsSub "youtu.be".data u.hostname = false →
        (∀ v, getParam u.query "v".data = some v →
          (decide (v ≠ []) && isValidId11 v) = false) →
        idAfterMarker "embed".data (pathSegments u.pathname) = some id →
        isValidId11 id = true →
        extractYouTubeVideoId s = some ⟨id⟩)
    ∧ (∀ (s : String) (u : URLParts) (id : List Char),
        parseURL (trimChars s.data) = some u →
        containsSub "youtu.be".data u.hostname = false →
        (∀ v, getParam u.query "v".data = some v →
          (decide (v ≠ []) && isValidId11 v) = false) →
        (∀ n, idAfterMarker "embed".data (pathSegments u.pathname) = some n →
          isValidId11 n = false) →
        idAfterMarker "shorts".data (pathSegments u.pathname) = some id →
        isValidId11 id = true →
        extractYouTubeVideoId s = some ⟨id⟩)
    ∧ (∀ s out : String, extractYouTubeVideoId s = some out →
        out.data.length = 11 ∧ ∀ c ∈ out.data, isIdChar c = true)
    ∧ (∀ s out : String, extractYouTubeVideoId s = some out →
        (isValidId11 (trimChars s.data) = true ∧ out.data = trimChars s.data)
        ∨ ∃ u, parseURL (trimChars s.data) = some u ∧
            ((containsSub "youtu.be".data u.hostname = true ∧
                ∃ t, pathSegments u.pathname = out.data :: t)
             ∨ (containsSub "youtu.be".data u.hostname = false ∧
                getParam u.query "v".data = some out.data)
             ∨ (containsSub "youtu.be".data u.hostname = false ∧
                (idAfterMarker "embed".data (pathSegments u.pathname) = some out.data ∨
                 idAfterMarker "shorts".data (pathSegments u.pathname) = some out.data))))
    ∧ (∀ s : String, isValidId11 (trimChars s.data) = false →
        parseURL (trimChars s.data) = none → extractYouTubeVideoId s = none)
    ∧ extractYouTubeVideoId "https://www.youtube.com/watch?v=short" = none
    ∧ extractYouTubeVideoId "https://example.com/abc" = none
    ∧ extractYouTubeVideoId "not a url" = none := by
  refine ⟨fun id hv => ⟨?_, ?_, ?_, ?_, ?_⟩, ?_, ?_, ?_, ?_, ?_, ?_, ?_, ?_,
    by decide, by decide, by decide⟩
  · unfold extractYouTubeVideoId
    rw [show (⟨id⟩ : String).data = id from rfl, extract_bare hv]
    rfl
  · unfold extractYouTubeVideoId
    rw [show ("https://youtu.be/" ++ (⟨id⟩ : String)).data = "https://youtu.be/".data ++ id
          from rfl,
        extract_shortlink hv]
    rfl
  · unfold extractYouTubeVideoId
    rw [show ("https://www.youtube.com/watch?v=" ++ (⟨id⟩ : String)).data =
          "https://www.youtube.com/watch?v=".data ++ id from rfl,
        extract_watch hv]
    rfl
  · unfold extractYouTubeVideoId
    rw [show ("https://www.youtube.com/embed/" ++ (⟨id⟩ : String)).data =
          "https://www.youtube.com/embed/".data ++ id from rfl,
        extract_embed hv]
    rfl
  · unfold extractYouTubeVideoId
    rw [show ("https://www.youtube.com/shorts/" ++ (⟨id⟩ : String)).data =
          "https://www.youtube.com/shorts/".data ++ id from rfl,
        extract_shorts hv]
    rfl
  · intro s hv
    unfold extractYouTubeVideoId
    rw [extract_bare_general hv]
    rfl
  · intro s u id t hp hyt hseg hv
    unfold extractYouTubeVideoId
    rw [extract_shortlink_general hp hyt hseg hv]
    rfl
  · intro s u id hp hyt hg hne hv
    unfold extractYouTubeVideoId
    rw [extract_watch_general hp hyt hg hne hv]
    rfl
  · intro s u id hp hyt hvq hm hv
    unfold extractYouTubeVideoId
    rw [extract_embed_general hp hyt hvq hm hv]
    rfl
  · intro s u id hp hyt hvq hemb hs hv
    unfold extractYouTubeVideoId
    rw [extract_shorts_general hp hyt hvq hemb hs hv]
    rfl
  · intro s out h
    unfold extractYouTubeVideoId at h
    rcases Option.map_eq_some'.mp h with ⟨x, hx, hout⟩
    obtain ⟨h1, h2⟩ := validId_parts (extractCore_sound hx)
    subst hout
    exact ⟨h1, h2⟩
  · intro s out h
    unfold extractYouTubeVideoId at h
    rcases Option.map_eq_some'.mp h with ⟨x, hx, hout⟩
    subst hout
    exact extractCore_shapes hx
  · intro s h1 h2
    unfold extractYouTubeVideoId
    rw [extractCore_invalid h1 h2]
    rfl

theorem resolver_contract_witness :
    extractYouTubeVideoId "  dQw4w9WgXcQ  " = some ⟨trimChars "  dQw4w9WgXcQ  ".data⟩
    ∧ extractYouTubeVideoId "https://www.youtube.com/watch?v=dQw4w9WgXcQ&t=42" =
        some ⟨"dQw4w9WgXcQ".data⟩
    ∧ extractYouTubeVideoId ("https://youtu.be/" ++ (⟨"dQw4w9WgXcQ".data⟩ : String)) =
        some ⟨"dQw4w9WgXcQ".data⟩
    ∧ extractYouTubeVideoId "not a url" = none :=
  ⟨resolver_contract.2.1 "  dQw4w9WgXcQ  " (by decide),
   resolver_contract.2.2.2.1 "https://www.youtube.com/watch?v=dQw4w9WgXcQ&t=42"
     { hostname := "www.youtube.com".data, pathname := "/watch".data,
       query := [("v".data, "dQw4w9WgXcQ".data), ("t".data, "42".data)] }
     "dQw4w9WgXcQ".data (by decide) (by decide) (by decide) (by decide) (by decide),
   (resolver_contract.1 "dQw4w9WgXcQ".data (by decide)).2.1,
   resolver_contract.2.2.2.2.2.2.2.2.1 "not a url" (by decide) (by decide)⟩

/-- C4 (code bug): the forward-migration write is dead code.  The guard
`rest === 0 && legacy > 0` tests the post-fallback value `rest`, which
already equals `legacy` whenever the current-scheme key read 0, so the
condition is unsatisfiable and `resolveDay` never changes storage.  On the
failing input (legacy `breakSec` = 120, `restSec` absent) the legacy value is
adopted in memory (totalRest = 120) but is never written forward into the
`restSec` key, contrary to the claim and to the code's own comment. -/
theorem legacy_migration_write_never_fires :
    (∀ (s : Page.Store) (d k : String), (Page.resolveDay d s).storage k = s.storage k)
    ∧ Page.readNumber legacyOnlyStorage (Page.restKeyOf "2025-01-15") = 0
    ∧ Page.readNumber legacyOnlyStorage (Page.legacyKeyOf "2025-01-15") = 120
    ∧ (Page.resolveDay "2025-01-15" legacyOnlyStore).totalRest = 120
    ∧ (Page.resolveDay "2025-01-15" legacyOnlyStore).storage
        (Page.restKeyOf "2025-01-15") = none :=
  ⟨resolveDay_storage_unchanged, by decide, by decide, by decide, by decide⟩

/-- C5 (counterexample): an `addRest 30` arriving before day-key resolution
raises the displayed total to 30 without persisting, but when resolution
completes the displayed total is replaced by the stored value 100 — not the
claimed 130 that would include the pre-resolution delta. -/
theorem pre_resolution_add_lost_counterexample :
    (Page.addRest 30 preResolveStore).totalRest = 30
    ∧ (Page.addRest 30 preResolveStore).storage (Page.restKeyOf "2025-01-15") = some 100
    ∧ (Page.resolveDay "2025-01-15" (Page.addRest 30 preResolveStore)).totalRest = 100
    ∧ (Page.resolveDay "2025-01-15" (Page.addRest 30 preResolveStore)).totalRest ≠ 130 :=
  ⟨by decide, by decide, by decide, by decide⟩

/-- C5 (amended): an `add` before resolution is indeed not persisted and is
reflected in the displayed total at the time of the call, but once the
day-key resolution runs the displayed total becomes exactly the
storage-restored value (with legacy fallback), discarding every
pre-resolution delta. -/
theorem pre_resolution_add_amended (q : ℚ) (s : Page.Store) (d : String)
    (h : s.today = none) :
    (∀ k, (Page.addRest q s).storage k = s.storage k)
    ∧ (Page.addRest q s).totalRest = s.totalRest + max 0 ⌊q⌋
    ∧ (Page.resolveDay d (Page.addRest q s)).totalRest =
        Page.orElseNum (Page.readNumber s.storage (Page.restKeyOf d))
          (Page.readNumber s.storage (Page.legacyKeyOf d)) := by
  refine ⟨?_, ?_, ?_⟩
  · intro k; simp [Page.addRest, h]
  · simp [Page.addRest]
  · simp [Page.resolveDay, Page.addRest, h]

theorem pre_resolution_add_amended_witness :
    (∀ k, (Page.addRest 30 preResolveStore).storage k = preResolveStore.storage k)
    ∧ (Page.addRest 30 preResolveStore).totalRest = preResolveStore.totalRest + max 0 ⌊(30 : ℚ)⌋
    ∧ (Page.resolveDay "2025-01-15" (Page.addRest 30 preResolveStore)).totalRest =
        Page.orElseNum
          (Page.readNumber preResolveStore.storage (Page.restKeyOf "2025-01-15"))
          (Page.readNumber preResolveStore.storage (Page.legacyKeyOf "2025-01-15")) :=
  pre_resolution_add_amended 30 preResolveStore "2025-01-15" rfl

/-- C6: once the countdown reaches zero (any tick at least `targetSec`
seconds past the anchor), the engine is `Done`, exactly the full target is
credited (never the measured elapsed), the notification fires exactly once
and strictly after the credit, and the periodic recomputation is stopped;
the target derived from minutes input `m` is `max(1, ⌊m⌋) * 60`. -/
theorem countdown_completion_credit (m : ℚ) (now₀ now₁ : ℕ) (s : Countdown.CdState)
    (h : (Countdown.start m now₀ s).targetSec ≤ (now₁ - now₀) / 1000) :
    (Countdown.tick now₁ (Countdown.start m now₀ s)).status = .done
    ∧ (Countdown.tick now₁ (Countdown.start m now₀ s)).total =
        s.total + (Countdown.start m now₀ s).targetSec
    ∧ (Countdown.tick now₁ (Countdown.start m now₀ s)).intervalActive = false
    ∧ (Countdown.tick now₁ (Countdown.start m now₀ s)).trace =
        s.trace ++ [.credit (Countdown.start m now₀ s).targetSec, .notify]
    ∧ (Countdown.start m now₀ s).targetSec = ((max 1 ⌊m⌋) * 60).toNat := by
  have hz : (Countdown.start m now₀ s).targetSec -
      (now₁ - (Countdown.start m now₀ s).startTs) / 1000 = 0 := by
    simp only [Countdown.start] at h ⊢
    omega
  have ha : (Countdown.start m now₀ s).intervalActive = true := rfl
  refine ⟨?_, ?_, ?_, ?_, rfl⟩ <;>
    simp only [Countdown.tick, ha, hz, Bool.true_eq_false, if_false, if_true] <;>
    simp [Countdown.start]

theorem countdown_completion_credit_witness :
    (Countdown.start 25 0 Countdown.init).targetSec = 1500
    ∧ (Countdown.tick 1500000 (Countdown.start 25 0 Countdown.init)).total = 1500
    ∧ (Countdown.tick 1500000 (Countdown.start 25 0 Countdown.init)).trace =
        [.credit 1500, .notify]
    ∧ ((Countdown.tick 1500000 (Countdown.start 25 0 Countdown.init)).status = .done
      ∧ (Countdown.tick 1500000 (Countdown.start 25 0 Countdown.init)).total =
          Countdown.init.total + (Countdown.start 25 0 Countdown.init).targetSec
      ∧ (Countdown.tick 1500000 (Countdown.start 25 0 Countdown.init)).intervalActive = false
      ∧ (Countdown.tick 1500000 (Countdown.start 25 0 Countdown.init)).trace =
          Countdown.init.trace ++
            [.credit (Countdown.start 25 0 Countdown.init).targetSec, .notify]
      ∧ (Countdown.start 25 0 Countdown.init).targetSec = ((max 1 ⌊(25 : ℚ)⌋) * 60).toNat) :=
  ⟨by decide, by decide, by decide,
   countdown_completion_credit 25 0 1500000 Countdown.init (by decide)⟩

/-- C7: `stop()` from `Running` moves to `Paused`, credits exactly the
measured `elapsedSec` (not the target), and clears the interval; from any
other state it is a strict no-op. -/
theorem countdown_stop_spec (s : Countdown.CdState) :
    (s.status = .running →
      Countdown.stop s =
        { s with status := .paused, intervalActive := false,
                 total := s.total + s.elapsedSec,
                 trace := s.trace ++ [.credit s.elapsedSec] })
    ∧ (s.status ≠ .running → Countdown.stop s = s) := by
  constructor
  · intro hr
    unfold Countdown.stop
    rw [if_neg (by simp [hr])]
  · intro hr
    unfold Countdown.stop
    rw [if_pos hr]

theorem countdown_stop_spec_witness :
    Countdown.stop cdRunningState =
      { cdRunningState with status := .paused, intervalActive := false,
                            total := cdRunningState.total + cdRunningState.elapsedSec,
                            trace := cdRunningState.trace ++
                              [.credit cdRunningState.elapsedSec] }
    ∧ Countdown.stop Countdown.init = Countdown.init :=
  ⟨(countdown_stop_spec cdRunningState).1 rfl,
   (countdown_stop_spec Countdown.init).2 (by decide)⟩

/-- C8: for both categories, `add` clamps its delta to `max(0, ⌊delta⌋)` and
adds it to the in-memory total, is monotone non-decreasing over any single
call and any sequence of calls, behaves on `-5` exactly as on `0` (a
whole-state equality), and — once the day key is resolved — persists the new
sum under that category's key. -/
theorem add_clamp_monotone :
    (∀ (q : ℚ) (s : Page.Store),
        (Page.addRest q s).totalRest = s.totalRest + max 0 ⌊q⌋
        ∧ (Page.addLearn q s).totalLearn = s.totalLearn + max 0 ⌊q⌋)
    ∧ (∀ (q : ℚ) (s : Page.Store),
        s.totalRest ≤ (Page.addRest q s).totalRest
        ∧ s.totalLearn ≤ (Page.addLearn q s).totalLearn)
    ∧ (∀ (qs : List ℚ) (s : Page.Store),
        s.totalRest ≤ (qs.foldl (fun st q => Page.addRest q st) s).totalRest
        ∧ s.totalLearn ≤ (qs.foldl (fun st q => Page.addLearn q st) s).totalLearn)
    ∧ (∀ s : Page.Store,
        Page.addRest (-5) s = Page.addRest 0 s
        ∧ Page.addLearn (-5) s = Page.addLearn 0 s)
    ∧ (∀ (q : ℚ) (s : Page.Store) (d : String), s.today = some d →
        (Page.addRest q s).storage (Page.restKeyOf d) =
          some (max 0 (s.totalRest + max 0 ⌊q⌋))
        ∧ (Page.addLearn q s).storage (Page.learnKeyOf d) =
          some (max 0 (s.totalLearn + max 0 ⌊q⌋))) := by
  have hstepR : ∀ (q : ℚ) (s : Page.Store), s.totalRest ≤ (Page.addRest q s).totalRest := by
    intro q s
    simp only [Page.addRest]
    have : (0 : ℤ) ≤ max 0 ⌊q⌋ := le_max_left 0 ⌊q⌋
    omega
  have hstepL : ∀ (q : ℚ) (s : Page.Store),
      s.totalLearn ≤ (Page.addLearn q s).totalLearn := by
    intro q s
    simp only [Page.addLearn]
    have : (0 : ℤ) ≤ max 0 ⌊q⌋ := le_max_left 0 ⌊q⌋
    omega
  refine ⟨?_, fun q s => ⟨hstepR q s, hstepL q s⟩, ?_, ?_, ?_⟩
  · intro q s; exact ⟨by simp [Page.addRest], by simp [Page.addLearn]⟩
  · intro qs
    induction qs with
    | nil => intro s; exact ⟨le_refl _, le_refl _⟩
    | cons q qs ih =>
      intro s
      exact ⟨le_trans (hstepR q s) (ih (Page.addRest q s)).1,
             le_trans (hstepL q s) (ih (Page.addLearn q s)).2⟩
  · intro s
    constructor
    · simp [Page.addRest]
      norm_num
    · simp [Page.addLearn]
      norm_num
  · intro q s d h
    exact ⟨by simp [Page.addRest, h, Page.writeNumber],
           by simp [Page.addLearn, h, Page.writeNumber]⟩

theorem add_clamp_monotone_witness :
    ((Page.addRest 30 resolvedStore).storage (Page.restKeyOf "2025-01-15") =
        some (max 0 (resolvedStore.totalRest + max 0 ⌊(30 : ℚ)⌋))
      ∧ (Page.addLearn 30 resolvedStore).storage (Page.learnKeyOf "2025-01-15") =
        some (max 0 (resolvedStore.totalLearn + max 0 ⌊(30 : ℚ)⌋)))
    ∧ resolvedStore.totalRest ≤ (Page.addRest (-5) resolvedStore).totalRest
    ∧ resolvedStore.totalLearn ≤ (Page.addLearn (-5) resolvedStore).totalLearn :=
  ⟨add_clamp_monotone.2.2.2.2 30 resolvedStore "2025-01-15" rfl,
   (add_clamp_monotone.2.1 (-5) resolvedStore).1,
   (add_clamp_monotone.2.1 (-5) resolvedStore).2⟩

/-- C9: after `resetToday` both in-memory totals and all three persisted
current-day keys (learn, rest and the legacy break key) read as 0, and a
subsequent day-key resolution (the migration check) restores 0 for both
categories — the legacy value cannot resurrect totals, even when the state
being reset came from a legacy migration. -/
theorem reset_then_read_zero (s : Page.Store) (d : String) (h : s.today = some d) :
    (Page.resetToday s).totalLearn = 0
    ∧ (Page.resetToday s).totalRest = 0
    ∧ Page.readNumber (Page.resetToday s).storage (Page.learnKeyOf d) = 0
    ∧ Page.readNumber (Page.resetToday s).storage (Page.restKeyOf d) = 0
    ∧ Page.readNumber (Page.resetToday s).storage (Page.legacyKeyOf d) = 0
    ∧ (Page.resolveDay d (Page.resetToday s)).totalLearn = 0
    ∧ (Page.resolveDay d (Page.resetToday s)).totalRest = 0 := by
  have hlearn : Page.readNumber (Page.resetToday s).storage (Page.learnKeyOf d) = 0 := by
    simp [Page.resetToday, h, Page.readNumber, Page.writeNumber,
      learnKey_ne_legacyKey d, learnKey_ne_restKey d]
  have hrest : Page.readNumber (Page.resetToday s).storage (Page.restKeyOf d) = 0 := by
    simp [Page.resetToday, h, Page.readNumber, Page.writeNumber, restKey_ne_legacyKey d]
  have hlegacy : Page.readNumber (Page.resetToday s).storage (Page.legacyKeyOf d) = 0 := by
    simp [Page.resetToday, h, Page.readNumber, Page.writeNumber]
  refine ⟨by simp [Page.resetToday], by simp [Page.resetToday], hlearn, hrest, hlegacy, ?_, ?_⟩
  · simp only [Page.resolveDay]
    simpa using hlearn
  · simp only [Page.resolveDay]
    simp [Page.orElseNum, hrest, hlegacy]

theorem reset_then_read_zero_witness :
    (Page.resolveDay "2025-01-15" legacyOnlyStore).totalRest = 120
    ∧ ((Page.resetToday (Page.resolveDay "2025-01-15" legacyOnlyStore)).totalLearn = 0
      ∧ (Page.resetToday (Page.resolveDay "2025-01-15" legacyOnlyStore)).totalRest = 0
      ∧ Page.readNumber (Page.resetToday (Page.resolveDay "2025-01-15" legacyOnlyStore)).storage
          (Page.learnKeyOf "2025-01-15") = 0
      ∧ Page.readNumber (Page.resetToday (Page.resolveDay "2025-01-15" legacyOnlyStore)).storage
          (Page.restKeyOf "2025-01-15") = 0
      ∧ Page.readNumber (Page.resetToday (Page.resolveDay "2025-01-15" legacyOnlyStore)).storage
          (Page.legacyKeyOf "2025-01-15") = 0
      ∧ (Page.resolveDay "2025-01-15"
          (Page.resetToday (Page.resolveDay "2025-01-15" legacyOnlyStore))).totalLearn = 0
      ∧ (Page.resolveDay "2025-01-15"
          (Page.resetToday (Page.resolveDay "2025-01-15" legacyOnlyStore))).totalRest = 0) :=
  ⟨by decide,
   reset_then_read_zero (Page.resolveDay "2025-01-15" legacyOnlyStore) "2025-01-15" rfl⟩

/-- C10 (counterexample): starting a session with a rejected input does not
change only the status and error message — it also cancels the active poll
interval: from a mid-playback panel (`tickActive = true`) an invalid start
leaves `tickActive = false`. -/
theorem invalid_start_cancels_tick_counterexample :
    playingPanel.tickActive = true
    ∧ (YtPanel.startRestYoutube playingPanel).tickActive = false
    ∧ (YtPanel.startRestYoutube playingPanel).status = .error
    ∧ (YtPanel.startRestYoutube playingPanel).videoId = playingPanel.videoId :=
  ⟨rfl, by decide, by decide, by decide⟩

/-- C10 (amended): on a rejected input, `startRestYoutube` sets the status
to `Error` with the validation message and cancels the poll interval, while
preserving the input, the mounted `videoId` and player instance, the
displayed `durationSec`/`remainingSec`, the `credited` latch and the Rest
total. -/
theorem invalid_start_frame (s : YtPanel.PanelState)
    (h : extractYouTubeVideoId s.input = none) :
    (YtPanel.startRestYoutube s).status = .error
    ∧ (YtPanel.startRestYoutube s).errorMsg = "URL/ID YouTube tidak valid."
    ∧ (YtPanel.startRestYoutube s).videoId = s.videoId
    ∧ (YtPanel.startRestYoutube s).durationSec = s.durationSec
    ∧ (YtPanel.startRestYoutube s).remainingSec = s.remainingSec
    ∧ (YtPanel.startRestYoutube s).counted = s.counted
    ∧ (YtPanel.startRestYoutube s).player = s.player
    ∧ (YtPanel.startRestYoutube s).restTotal = s.restTotal
    ∧ (YtPanel.startRestYoutube s).input = s.input
    ∧ (YtPanel.startRestYoutube s).tickActive = false := by
  simp [YtPanel.startRestYoutube, h]

theorem invalid_start_frame_witness :
    (YtPanel.startRestYoutube playingPanel).status = .error
    ∧ (YtPanel.startRestYoutube playingPanel).errorMsg = "URL/ID YouTube tidak valid."
    ∧ (YtPanel.startRestYoutube playingPanel).videoId = playingPanel.videoId
    ∧ (YtPanel.startRestYoutube playingPanel).durationSec = playingPanel.durationSec
    ∧ (YtPanel.startRestYoutube playingPanel).remainingSec = playingPanel.remainingSec
    ∧ (YtPanel.startRestYoutube playingPanel).counted = playingPanel.counted
    ∧ (YtPanel.startRestYoutube playingPanel).player = playingPanel.player
    ∧ (YtPanel.startRestYoutube playingPanel).restTotal = playingPanel.restTotal
    ∧ (YtPanel.startRestYoutube playingPanel).input = playingPanel.input
    ∧ (YtPanel.startRestYoutube playingPanel).tickActive = false :=
  invalid_start_frame playingPanel (by decide)
